import Mathlib

/-!
Verification development for the `compas_session` repository.

Shallow embedding of the two session classes:
* `Session` (src/compas_session/session.py): per-name singleton registry,
  whole-state dump/load history with `record`/`undo`/`redo`.
* `LazyLoadSession` (src/compas_session/lazyload.py): process-wide singleton,
  per-key lazy load/cache, directory-snapshot history.

Python dictionaries and the file system are modelled as association lists;
machine identity of Python objects is modelled by allocation ids handed out
by a monotone counter.  The file is organised as definitions first, then
theorems.
-/

namespace CompasSession

/-- A serializable value stored in a session.  `vnone` is Python's `None`;
`json n` is an arbitrary JSON-serializable payload; `brep n` is a
`compas.geometry.Brep`; the remaining constructors are the opaque blobs
written to the scene/settings/tolerance/version files. -/
inductive Value where
  | vnone : Value
  | json : Nat → Value
  | brep : Nat → Value
  | sceneV : Nat → Value
  | settingsV : Bool → Bool → Value
  | tolV : Value
  | versionV : Value
deriving DecidableEq, Repr

/-- `compas_session.settings.Settings` (a pydantic model with two booleans). -/
structure Settings where
  autosave : Bool := false
  autosync : Bool := true
deriving DecidableEq, Repr

/-- `model_dump()` of a `Settings` object, as written to the settings file. -/
def Settings.modelDump (s : Settings) : Value :=
  Value.settingsV s.autosave s.autosync

/-- Lookup in an association list (Python `dict.__getitem__` / file lookup). -/
def assocGet {α β : Type} [DecidableEq α] : List (α × β) → α → Option β
  | [], _ => none
  | (k, v) :: rest, a => if k = a then some v else assocGet rest a

/-- Membership test (Python `key in dict` / `path.exists()`). -/
def assocMem {α β : Type} [DecidableEq α] (l : List (α × β)) (a : α) : Bool :=
  (assocGet l a).isSome

/-- Update/insert (Python `dict.__setitem__` / writing a file). -/
def assocSet {α β : Type} [DecidableEq α] : List (α × β) → α → β → List (α × β)
  | [], a, b => [(a, b)]
  | (k, v) :: rest, a, b => if k = a then (a, b) :: rest else (k, v) :: assocSet rest a b

/-- Deletion (Python `del dict[key]` / removing a file or directory). -/
def assocDel {α β : Type} [DecidableEq α] : List (α × β) → α → List (α × β)
  | [], _ => []
  | (k, v) :: rest, a => if k = a then assocDel rest a else (k, v) :: assocDel rest a

/-!
## The `Session` registry (`Session.__new__` in session.py)

`Session._instances` is a class-level dict from name to instance.  Object
identity is modelled by a `Nat` id; `object.__new__` hands out a fresh id
from the `nextId` counter.  An empty name raises `SessionError`.
-/

/-- The class-level state backing `Session.__new__`. -/
structure Registry where
  instances : List (String × Nat)
  nextId : Nat
deriving Repr, DecidableEq

/-- The empty registry at interpreter start-up. -/
def Registry.init : Registry := ⟨[], 0⟩

/-- `Session.__new__(cls, *, name, **kwargs)`: raises `SessionError` when the
name is falsy, otherwise returns the instance registered under `name`,
creating and registering a fresh one on first use. -/
def sessionNew (name : String) (r : Registry) : Except Unit (Nat × Registry) :=
  if name = "" then Except.error ()
  else
    match assocGet r.instances name with
    | some i => Except.ok (i, r)
    | none =>
        Except.ok (r.nextId, ⟨(name, r.nextId) :: r.instances, r.nextId + 1⟩)

/-- Well-formedness of the registry: every registered id is below the
counter, and both names and ids are duplicate-free. -/
def RegWF (r : Registry) : Prop :=
  (∀ p ∈ r.instances, p.2 < r.nextId) ∧
    (r.instances.map Prod.fst).Nodup ∧ (r.instances.map Prod.snd).Nodup

/-!
## `Session` state operations (session.py)

`record` dumps the whole live state (`data`, `scene`, `settings.model_dump()`)
into a fresh temp file and appends `(filepath, label)` to `history`; `undo` /
`redo` move the cursor and call `self.load(filepath, reset=False)`, which
replaces `data`, `scene` and `settings` with the file's contents.  Temp-file
paths from `tempfile.mkstemp` are modelled by ids from the monotone counter
`nextFile`; the temp directory is the `files` association list.  A failed
file read (an exception escaping the Python call) is `Option.none`.
-/

/-- Contents of one dumped session file (`Session.dump`). -/
structure DumpBlob where
  ddata : List (String × Value)
  dscene : Value
  dsettings : Settings
deriving DecidableEq, Repr

/-- The live state of one `Session` instance plus its temp-file directory. -/
structure SessState where
  current : Int
  depth : Int
  history : List (Nat × String)
  data : List (String × Value)
  scene : Value
  settings : Settings
  files : List (Nat × DumpBlob)
  nextFile : Nat
deriving DecidableEq, Repr

/-- `Session.__init__` on a fresh instance: `current = -1`, `depth = 53`,
empty history and data. -/
def SessState.initial (scene : Value) (settings : Settings) : SessState :=
  ⟨-1, 53, [], [], scene, settings, [], 0⟩

/-- `Session.set(key, value)`. -/
def sessionSet (k : String) (v : Value) (s : SessState) : SessState :=
  { s with data := assocSet s.data k v }

/-- `Session.get(key, default)`. -/
def sessionGet (k : String) (default : Value) (s : SessState) : Value :=
  match assocGet s.data k with
  | some v => v
  | none => default

/-- `Session.load(filepath, reset=False)`: replace `data`, `scene` and
`settings` with the file contents; `none` when the file is unreadable
(`compas.json_load` raises). -/
def sessionLoad (fid : Nat) (s : SessState) : Option SessState :=
  match assocGet s.files fid with
  | some b => some { s with data := b.ddata, scene := b.dscene, settings := b.dsettings }
  | none => none

/-- The branch-truncation step shared by both `record` implementations:
`if self.current > -1: if self.current < len(self.history) - 1:
self.history[:] = self.history[: self.current + 1]`. -/
def truncList (current : Int) (l : List (Nat × String)) : List (Nat × String) :=
  if current > -1 ∧ current < (l.length : Int) - 1 then l.take (current.toNat + 1)
  else l

/-- The depth-trimming step shared by both `record` implementations:
`h = len(self.history); if h > self.depth:
self.history[:] = self.history[h - self.depth :]`. -/
def trimList (depth : Int) (l : List (Nat × String)) : List (Nat × String) :=
  if (l.length : Int) > depth then l.drop (l.length - depth.toNat)
  else l

/-- `Session.record(name)`: truncate the redo branch when the cursor is not
at the tail, dump the live state into a fresh temp file, append it to the
history, trim the history to `depth` entries and move the cursor to the
tail. -/
def sessionRecord (lbl : String) (s : SessState) : SessState :=
  let fid := s.nextFile
  let hist := truncList s.current s.history ++ [(fid, lbl)]
  let hist2 := trimList s.depth hist
  { s with
    history := hist2
    files := assocSet s.files fid ⟨s.data, s.scene, s.settings⟩
    current := (hist2.length : Int) - 1
    nextFile := fid + 1 }

/-- `Session.undo()`: boundary guards return `(s, false)`; otherwise the
cursor moves back one step and the state at the new cursor is loaded. -/
def sessionUndo (s : SessState) : Option (SessState × Bool) :=
  if s.current < 0 then some (s, false)
  else if s.current = 0 then some (s, false)
  else
    match s.history.get? (s.current - 1).toNat with
    | none => none
    | some (fid, _) =>
      match sessionLoad fid { s with current := s.current - 1 } with
      | some s'' => some (s'', true)
      | none => none

/-- `Session.redo()`: at the tail (`current == len(history) - 1`) it returns
`(s, false)`; otherwise the cursor moves forward one step and the state at
the new cursor is loaded. -/
def sessionRedo (s : SessState) : Option (SessState × Bool) :=
  if s.current = (s.history.length : Int) - 1 then some (s, false)
  else
    match s.history.get? (s.current + 1).toNat with
    | none => none
    | some (fid, _) =>
      match sessionLoad fid { s with current := s.current + 1 } with
      | some s'' => some (s'', true)
      | none => none

/-!
## `LazyLoadSession` (lazyload.py)

The session directory layout is modelled field by field: `datafiles` is the
`data/` directory (keys are file names such as `"x.json"`), `recordDirs` is
the `__records/` directory (keys are record ids, modelled as counter values
in place of timestamp strings), and the five top-level session files are
`Option Value` (`none` = the file does not exist).  The in-memory state is
`current`/`depth`/`history`/`data`/`settings`/`sceneLive`.
-/

/-- One snapshot directory under `__records/<recordId>/`: a copy of the data
directory plus the scene/settings/tolerance/version files. -/
structure Snapshot where
  sdata : List (String × Value)
  sscene : Option Value
  ssettings : Option Value
  stol : Option Value
  sversion : Option Value
deriving DecidableEq, Repr

/-- The live state of the `LazyLoadSession` singleton plus its on-disk
session directory. -/
structure LazyState where
  current : Int
  depth : Int
  history : List (Nat × String)
  data : List (String × Value)
  settings : Settings
  sceneLive : Value
  datafiles : List (String × Value)
  sceneFile : Option Value
  settingsFile : Option Value
  tolFile : Option Value
  verFile : Option Value
  histFile : Option (Int × Int × List (Nat × String))
  recordDirs : List (Nat × Snapshot)
  clock : Nat
deriving DecidableEq, Repr

/-- State of a freshly constructed `LazyLoadSession` (`__new__` on an empty
base directory): `current = -1`, empty history and data, no session files. -/
def LazyState.initial (depth : Int) (settings : Settings) (scene : Value) : LazyState where
  current := -1
  depth := depth
  history := []
  data := []
  settings := settings
  sceneLive := scene
  datafiles := []
  sceneFile := none
  settingsFile := none
  tolFile := none
  verFile := none
  histFile := none
  recordDirs := []
  clock := 0

/-- The data-directory part of `LazyLoadSession.dump`: every resident value
is written to `<key>.stp` when it is a `Brep` and to `<key>.json`
otherwise. -/
def dumpDataFiles (df : List (String × Value)) (data : List (String × Value)) :
    List (String × Value) :=
  data.foldl
    (fun df kv =>
      match kv.2 with
      | Value.brep n => assocSet df (kv.1 ++ ".stp") (Value.brep n)
      | v => assocSet df (kv.1 ++ ".json") v)
    df

/-- `LazyLoadSession.dump()`: write the history, scene, settings, tolerance
and version files, then persist every resident data value. -/
def lazyDump (s : LazyState) : LazyState :=
  { s with
    histFile := some (s.depth, s.current, s.history)
    sceneFile := some s.sceneLive
    settingsFile := some s.settings.modelDump
    tolFile := some Value.tolV
    verFile := some Value.versionV
    datafiles := dumpDataFiles s.datafiles s.data }

/-- `LazyLoadSession.record(name)`: truncate the redo branch of the history
list (the snapshot directories of the truncated entries are NOT deleted),
append a fresh record id, dump the live state, copy it into the new snapshot
directory, trim the history to `depth` entries and move the cursor to the
tail. -/
def lazyRecord (lbl : String) (s : LazyState) : LazyState :=
  let rid := s.clock
  let hist := truncList s.current s.history ++ [(rid, lbl)]
  let s2 := lazyDump { s with history := hist }
  let snap : Snapshot := ⟨s2.datafiles, s2.sceneFile, s2.settingsFile, s2.tolFile, s2.verFile⟩
  let hist2 := trimList s.depth hist
  { s2 with
    recordDirs := assocSet s2.recordDirs rid snap
    history := hist2
    current := (hist2.length : Int) - 1
    clock := s.clock + 1 }

/-- The restore half of `undo`/`redo`: replace the data directory and the
four auxiliary files with the snapshot's copies, then re-dump the history
file.  The in-memory `data` cache is NOT touched. -/
def lazyRestore (snap : Snapshot) (s : LazyState) : LazyState :=
  { s with
    datafiles := snap.sdata
    sceneFile := snap.sscene
    settingsFile := snap.ssettings
    tolFile := snap.stol
    verFile := snap.sversion
    histFile := some (s.depth, s.current, s.history) }

/-- `LazyLoadSession.undo()`: boundary guards return `(s, false)` unchanged;
otherwise the cursor is decremented FIRST and only then the snapshot
directory is checked — a missing directory returns `false` with the cursor
already moved. -/
def lazyUndo (s : LazyState) : Option (LazyState × Bool) :=
  if s.current < 0 then some (s, false)
  else if s.current = 0 then some (s, false)
  else
    match s.history.get? (s.current - 1).toNat with
    | none => none
    | some (rid, _) =>
      match assocGet s.recordDirs rid with
      | some snap => some (lazyRestore snap { s with current := s.current - 1 }, true)
      | none => some ({ s with current := s.current - 1 }, false)

/-- `LazyLoadSession.redo()`: at or beyond the tail it returns `(s, false)`
unchanged; otherwise the cursor is incremented FIRST and only then the
snapshot directory is checked. -/
def lazyRedo (s : LazyState) : Option (LazyState × Bool) :=
  if s.current ≥ (s.history.length : Int) - 1 then some (s, false)
  else
    match s.history.get? (s.current + 1).toNat with
    | none => none
    | some (rid, _) =>
      match assocGet s.recordDirs rid with
      | some snap => some (lazyRestore snap { s with current := s.current + 1 }, true)
      | none => some ({ s with current := s.current + 1 }, false)

/-- `LazyLoadSession.clear_history()`: reset the cursor and the depth to the
class default, delete every snapshot directory referenced in the history,
and empty the history. -/
def lazyClearHistory (s : LazyState) : LazyState :=
  { s with
    current := -1
    depth := 53
    recordDirs := s.history.foldl (fun dirs e => assocDel dirs e.1) s.recordDirs
    history := [] }

/-- `LazyLoadSession.get(key, default)` with the default file path
`<datadir>/<key>.json` (the only path its in-repo callers use): a resident
key is returned from the cache; otherwise, when the backing file exists, its
contents are loaded and cached; otherwise the default is returned without
caching. -/
def lazyGet (k : String) (default : Value) (s : LazyState) : Value × LazyState :=
  let s :=
    if assocMem s.data k then s
    else
      match assocGet s.datafiles (k ++ ".json") with
      | some fv => { s with data := assocSet s.data k fv }
      | none => s
  (match assocGet s.data k with
   | some v => v
   | none => default, s)

/-- `LazyLoadSession.set(key, value)`: cache the value; when
`settings.autosync` is set, also `compas.json_dump` it to
`<datadir>/<key>.json` (unconditionally `.json`, whatever the value's
kind). -/
def lazySet (k : String) (v : Value) (s : LazyState) : LazyState :=
  let s := { s with data := assocSet s.data k v }
  if s.settings.autosync then
    { s with datafiles := assocSet s.datafiles (k ++ ".json") v }
  else s

/-- `LazyLoadSession.setdefault(key, factory)`: when the key is not resident
in the in-memory cache, call the factory and `set` the result; then return
`get(key)`.  The third component counts factory invocations. -/
def lazySetdefault (k : String) (factory : Unit → Value) (s : LazyState) :
    Value × LazyState × Nat :=
  if assocMem s.data k then
    let vs := lazyGet k Value.vnone s
    (vs.1, vs.2, 0)
  else
    let s' := lazySet k (factory ()) s
    let vs := lazyGet k Value.vnone s'
    (vs.1, vs.2, 1)

/-- `LazyLoadSession.__contains__(key)`: calls `get` (which may lazily load
and cache), then reports `False` exactly when the result is `None` and the
key is still not resident. -/
def lazyContains (k : String) (s : LazyState) : Bool × LazyState :=
  let vs := lazyGet k Value.vnone s
  if vs.1 = Value.vnone ∧ assocMem vs.2.data k = false then (false, vs.2)
  else (true, vs.2)

/-- `LazyLoadSession.__getitem__(key)`: calls `get`, then raises `KeyError`
exactly when the result is `None` and the key is still not resident. -/
def lazyGetitem (k : String) (s : LazyState) : Except Unit (Value × LazyState) :=
  let vs := lazyGet k Value.vnone s
  if vs.1 = Value.vnone ∧ assocMem vs.2.data k = false then Except.error ()
  else Except.ok (vs.1, vs.2)

/-- The history-manipulating operations of claim C4. -/
inductive LazyOp where
  | record : String → LazyOp
  | undo : LazyOp
  | redo : LazyOp
  | clear : LazyOp

/-- Apply one operation, keeping only the resulting state.  On well-formed
states `lazyUndo`/`lazyRedo` never return `none` (the history index is in
range whenever the guards pass), so the `getD` default is never taken
there. -/
def lazyApply (op : LazyOp) (s : LazyState) : LazyState :=
  match op with
  | LazyOp.record lbl => lazyRecord lbl s
  | LazyOp.undo => ((lazyUndo s).getD (s, false)).1
  | LazyOp.redo => ((lazyRedo s).getD (s, false)).1
  | LazyOp.clear => lazyClearHistory s

/-- The history invariants of claim C4. -/
def LazyWF (s : LazyState) : Prop :=
  1 ≤ s.depth ∧ -1 ≤ s.current ∧ s.current ≤ (s.history.length : Int) - 1 ∧
    (s.history.length : Int) ≤ s.depth

instance (s : LazyState) : Decidable (LazyWF s) :=
  inferInstanceAs (Decidable (1 ≤ s.depth ∧ -1 ≤ s.current ∧
    s.current ≤ (s.history.length : Int) - 1 ∧ (s.history.length : Int) ≤ s.depth))

/-!
## `LazyLoadSession.__new__` (the process-wide singleton of claim C3)

The class keeps a single class-level `_instance` slot.  When the slot is
filled, the stored instance is returned unchanged whatever the `name`
argument is; no code path raises.  The slot remembers the name the live
instance was created with; ids come from a monotone counter.
-/

/-- The class-level state backing `LazyLoadSession.__new__`. -/
structure LazyRegistry where
  live : Option (Nat × String)
  nextId : Nat
deriving DecidableEq, Repr

/-- The empty slot at interpreter start-up. -/
def LazyRegistry.init : LazyRegistry := ⟨none, 0⟩

/-- `LazyLoadSession.__new__(cls, *, name, ...)`: fill the slot on first
construction, otherwise return the stored instance — the function is total
and never raises, for any name. -/
def lazyNew (name : String) (r : LazyRegistry) : Nat × LazyRegistry :=
  match r.live with
  | some (i, _) => (i, r)
  | none => (r.nextId, ⟨some (r.nextId, name), r.nextId + 1⟩)

/-!
## Concrete states used by counterexamples and witnesses
-/

/-- A snapshot directory with no contents. -/
def emptySnap : Snapshot := ⟨[], none, none, none, none⟩

/-- A session state whose history entry 0 references record id 0 while the
`__records/0/` snapshot directory is missing. -/
def undoCex : LazyState :=
  { LazyState.initial 53 ⟨false, true⟩ (Value.sceneV 0) with
    current := 1
    history := [(0, "a"), (1, "b")]
    recordDirs := []
    clock := 2 }

/-- A session state one step before the tail whose forward history entry
references record id 1 while `__records/1/` is missing. -/
def redoCex : LazyState :=
  { LazyState.initial 53 ⟨false, true⟩ (Value.sceneV 0) with
    current := 0
    history := [(0, "a"), (1, "b")]
    recordDirs := [(0, emptySnap)]
    clock := 2 }

/-- A fresh session state with autosync enabled (the settings default). -/
def setCex : LazyState := LazyState.initial 53 ⟨false, true⟩ (Value.sceneV 0)

/-- A session state with a backing file `data/k.json` but no resident value
for key `k`. -/
def setdefaultCex : LazyState :=
  { LazyState.initial 53 ⟨false, true⟩ (Value.sceneV 0) with
    datafiles := [("k.json", Value.json 7)] }

/-- A session state whose key `k` is not resident and is backed only by
`data/k.stp` — the file `dump()` itself writes for a Brep value. -/
def stpCex : LazyState :=
  { LazyState.initial 53 ⟨false, true⟩ (Value.sceneV 0) with
    datafiles := [("k.stp", Value.brep 5)] }

/-- Concrete run for claim C5: record twice, undo once, record again. -/
def c5s1 : LazyState := lazyRecord "A" (LazyState.initial 53 ⟨false, true⟩ (Value.sceneV 0))

/-- Second record of the C5 run. -/
def c5s2 : LazyState := lazyRecord "B" c5s1

/-- State after the undo of the C5 run. -/
def c5s3 : LazyState := ((lazyUndo c5s2).getD (c5s2, false)).1

/-- State after the branch-collapsing record of the C5 run. -/
def c5s4 : LazyState := lazyRecord "C" c5s3

/-- A session state with the cursor one step before the tail, used to
witness the branch-truncation behaviour of `record`. -/
def branchCex : LazyState :=
  { LazyState.initial 53 ⟨false, true⟩ (Value.sceneV 0) with
    current := 0
    history := [(5, "a"), (6, "b")]
    recordDirs := [(5, emptySnap), (6, emptySnap)]
    clock := 7 }

/-- The state reached by the successful undo in the scenario of claim C7:
the cursor one step back and `data`/`scene`/`settings` restored from the
dump taken at `record "A"`. -/
def s4c (s3 s : SessState) : SessState :=
  { s3 with
    current := s3.current - 1
    data := s.data
    scene := s.scene
    settings := s.settings }

/-!
# Theorems
-/

theorem assocGet_set_self {α β : Type} [DecidableEq α] (l : List (α × β)) (a : α) (b : β) :
    assocGet (assocSet l a b) a = some b := by
  induction l with
  | nil => simp [assocGet, assocSet]
  | cons hd tl ih =>
    obtain ⟨k, v⟩ := hd
    by_cases hk : k = a
    · simp [assocGet, assocSet, hk]
    · simp [assocGet, assocSet, hk, ih]

theorem assocGet_set_ne {α β : Type} [DecidableEq α] (l : List (α × β)) (a a' : α) (b : β)
    (h : a ≠ a') : assocGet (assocSet l a b) a' = assocGet l a' := by
  induction l with
  | nil => simp [assocGet, assocSet, h]
  | cons hd tl ih =>
    obtain ⟨k, v⟩ := hd
    by_cases hk : k = a
    · subst hk
      simp [assocGet, assocSet, h, Ne.symm h]
    · by_cases hk' : k = a'
      · simp [assocGet, assocSet, hk, hk', Ne.symm h]
      · simp [assocGet, assocSet, hk, hk', ih]

theorem assocGet_eq_none {α β : Type} [DecidableEq α] {l : List (α × β)} {a : α} :
    assocGet l a = none ↔ a ∉ l.map Prod.fst := by
  induction l with
  | nil => simp [assocGet]
  | cons hd tl ih =>
    obtain ⟨k, v⟩ := hd
    by_cases hk : k = a
    · subst hk; simp [assocGet]
    · simp [assocGet, hk, ih, Ne.symm hk]

theorem regWF_init : RegWF Registry.init := by
  constructor
  · intro p hp; simp [Registry.init] at hp
  · constructor <;> simp [Registry.init]

theorem assocGet_mem {α β : Type} [DecidableEq α] {l : List (α × β)} {a : α} {b : β}
    (h : assocGet l a = some b) : (a, b) ∈ l := by
  induction l with
  | nil => simp [assocGet] at h
  | cons hd tl ih =>
    obtain ⟨k, v⟩ := hd
    by_cases hk : k = a
    · subst hk
      simp [assocGet] at h
      simp [h]
    · simp [assocGet, hk] at h
      exact List.mem_cons_of_mem _ (ih h)

theorem sessionNew_WF {name : String} {r : Registry} {i : Nat} {r' : Registry}
    (hwf : RegWF r) (h : sessionNew name r = Except.ok (i, r')) : RegWF r' := by
  obtain ⟨hlt, hnames, hids⟩ := hwf
  unfold sessionNew at h
  by_cases hn : name = ""
  · simp [hn] at h
  · simp only [hn, if_false] at h
    cases hget : assocGet r.instances name with
    | some j =>
        rw [hget] at h
        simp at h
        obtain ⟨-, rfl⟩ := h
        exact ⟨hlt, hnames, hids⟩
    | none =>
        rw [hget] at h
        simp at h
        obtain ⟨-, rfl⟩ := h
        refine ⟨?_, ?_, ?_⟩
        · intro p hp
          rcases List.mem_cons.mp hp with hp | hp
          · subst hp; simp
          · exact Nat.lt_trans (hlt p hp) (Nat.lt_succ_self _)
        · refine List.nodup_cons.mpr ⟨?_, hnames⟩
          exact assocGet_eq_none.mp hget
        · refine List.nodup_cons.mpr ⟨?_, hids⟩
          intro hmem
          rcases List.mem_map.mp hmem with ⟨p, hp, hsnd⟩
          have := hlt p hp
          omega

theorem sessionNew_ok_lookup {name : String} {r : Registry} {i : Nat} {r' : Registry}
    (h : sessionNew name r = Except.ok (i, r')) : assocGet r'.instances name = some i := by
  unfold sessionNew at h
  by_cases hn : name = ""
  · simp [hn] at h
  · simp only [hn, if_false] at h
    cases hget : assocGet r.instances name with
    | some j =>
        rw [hget] at h
        simp at h
        obtain ⟨rfl, rfl⟩ := h
        exact hget
    | none =>
        rw [hget] at h
        simp at h
        obtain ⟨rfl, rfl⟩ := h
        simp [assocGet]

theorem filter_key_nil {β : Type} {l : List (String × β)} {n : String}
    (h : n ∉ l.map Prod.fst) : l.filter (fun p => p.1 = n) = [] := by
  induction l with
  | nil => rfl
  | cons hd tl ih =>
    rw [List.map_cons] at h
    have hne : ¬(hd.1 = n) := by
      intro he
      exact h (by rw [he]; exact List.mem_cons_self _ _)
    have htl : n ∉ tl.map Prod.fst := fun hm => h (List.mem_cons_of_mem _ hm)
    rw [List.filter_cons]
    simp [hne, ih htl]

theorem filter_key_unique {β : Type} {l : List (String × β)} {n : String} {b : β}
    (hnodup : (l.map Prod.fst).Nodup) (hmem : (n, b) ∈ l) :
    (l.filter (fun p => p.1 = n)).length = 1 := by
  induction l with
  | nil => simp at hmem
  | cons hd tl ih =>
    rw [List.map_cons] at hnodup
    have hnd := List.nodup_cons.mp hnodup
    rcases List.mem_cons.mp hmem with hmem' | hmem'
    · subst hmem'
      rw [List.filter_cons]
      simp [filter_key_nil hnd.1]
    · have hne : ¬(hd.1 = n) := by
        intro he
        exact hnd.1 (by rw [he]; exact List.mem_map.mpr ⟨(n, b), hmem', rfl⟩)
      rw [List.filter_cons]
      simp only [hne, decide_eq_false_iff_not, if_neg, decide_eq_true_eq, if_false]
      exact ih hnd.2 hmem'

theorem SessState.ext_fields {s t : SessState}
    (h1 : s.current = t.current) (h2 : s.depth = t.depth)
    (h3 : s.history = t.history) (h4 : s.data = t.data)
    (h5 : s.scene = t.scene) (h6 : s.settings = t.settings)
    (h7 : s.files = t.files) (h8 : s.nextFile = t.nextFile) : s = t := by
  cases s; cases t
  simp_all

/-- C2: for every non-empty name, two constructions of a `Session` with the
same name return the identical instance (and leave the registry unchanged);
constructions with two distinct names return distinct instances; and the
registry holds exactly one live instance per name. -/
theorem session_singleton_per_name
    (r : Registry) (n1 n2 : String) (i1 : Nat) (r1 : Registry)
    (hwf : RegWF r) (hn1 : n1 ≠ "") (hne : n1 ≠ n2)
    (h1 : sessionNew n1 r = Except.ok (i1, r1)) :
    sessionNew n1 r1 = Except.ok (i1, r1) ∧
    (∀ i2 r2, sessionNew n2 r1 = Except.ok (i2, r2) → i1 ≠ i2) ∧
    (r1.instances.filter (fun p => p.1 = n1)).length = 1 := by
  have hwf1 : RegWF r1 := sessionNew_WF hwf h1
  have hlook : assocGet r1.instances n1 = some i1 := sessionNew_ok_lookup h1
  have hmem1 : (n1, i1) ∈ r1.instances := assocGet_mem hlook
  refine ⟨?_, ?_, ?_⟩
  · unfold sessionNew
    simp [hn1, hlook]
  · intro i2 r2 h2
    unfold sessionNew at h2
    by_cases hn2 : n2 = ""
    · simp [hn2] at h2
    · simp only [hn2, if_false] at h2
      cases hget : assocGet r1.instances n2 with
      | some j =>
          rw [hget] at h2
          have h2a : j = i2 := by
            injection h2 with hp
            exact congrArg Prod.fst hp
          subst h2a
          have hmem2 : (n2, j) ∈ r1.instances := assocGet_mem hget
          intro heq
          have h12 : (n1, i1) = (n2, j) :=
            List.inj_on_of_nodup_map hwf1.2.2 hmem1 hmem2 heq
          exact hne (congrArg Prod.fst h12)
      | none =>
          rw [hget] at h2
          have h2a : r1.nextId = i2 := by
            injection h2 with hp
            exact congrArg Prod.fst hp
          have := hwf1.1 _ hmem1
          omega
  · exact filter_key_unique hwf1.2.1 hmem1

/-- Witness for C2 at the concrete registry state after constructing
`Session(name="One")` from a fresh interpreter: the repeated lookup, the
distinct-name id inequality, and the one-entry-per-name count. -/
theorem session_singleton_per_name_witness :
    sessionNew "One" ⟨[("One", 0)], 1⟩ = Except.ok (0, ⟨[("One", 0)], 1⟩) ∧
    (0 : Nat) ≠ 1 ∧
    ((⟨[("One", 0)], 1⟩ : Registry).instances.filter (fun p => p.1 = "One")).length = 1 := by
  have h := session_singleton_per_name Registry.init "One" "Two" 0 ⟨[("One", 0)], 1⟩
    regWF_init (by decide) (by decide) (by rfl)
  exact ⟨h.1, h.2.1 1 ⟨[("Two", 1), ("One", 0)], 2⟩ (by rfl), h.2.2⟩

/-- C3 counterexample: constructing `LazyLoadSession(name="Two")` while the
instance named `"One"` is live does not fail with an identity error — it is
silently mapped to the existing instance (same id, registry unchanged). -/
theorem lazyNew_silent_mapping_counterexample :
    (lazyNew "Two" (lazyNew "One" LazyRegistry.init).2).1 =
        (lazyNew "One" LazyRegistry.init).1 ∧
    (lazyNew "Two" (lazyNew "One" LazyRegistry.init).2).2 =
        (lazyNew "One" LazyRegistry.init).2 := by
  decide

/-- C3 amended: in the strict process-wide variant the first construction
wins and its instance is returned for every subsequent construction
regardless of the name argument; a second construction with a distinct name
is silently mapped to the existing instance and no identity error is
raised. -/
theorem lazyNew_first_wins (r : LazyRegistry) (n1 n2 : String) (i : Nat) (nm : String) :
    (r.live = none →
      (lazyNew n2 (lazyNew n1 r).2).1 = (lazyNew n1 r).1 ∧
      (lazyNew n2 (lazyNew n1 r).2).2 = (lazyNew n1 r).2) ∧
    (r.live = some (i, nm) → lazyNew n2 r = (i, r)) := by
  constructor
  · intro hlive
    unfold lazyNew
    simp [hlive]
  · intro hlive
    unfold lazyNew
    simp [hlive]

/-- Witness for the amended C3 at the fresh-interpreter registry. -/
theorem lazyNew_first_wins_witness :
    ((lazyNew "Two" (lazyNew "One" LazyRegistry.init).2).1 =
        (lazyNew "One" LazyRegistry.init).1 ∧
      (lazyNew "Two" (lazyNew "One" LazyRegistry.init).2).2 =
        (lazyNew "One" LazyRegistry.init).2) ∧
    lazyNew "Two" (⟨some (0, "One"), 1⟩ : LazyRegistry) = (0, ⟨some (0, "One"), 1⟩) :=
  ⟨(lazyNew_first_wins LazyRegistry.init "One" "Two" 0 "One").1 (by rfl),
    (lazyNew_first_wins ⟨some (0, "One"), 1⟩ "One" "Two" 0 "One").2 (by rfl)⟩

/-- C6 counterexample: a non-resident key backed only by `data/k.stp` —
exactly the file `dump()` writes for a Brep value, as the last conjunct
checks — still raises `KeyError` on strict indexing, because `get` probes
only `<datadir>/<key>.json`; so "raises exactly when neither a cached value
nor a backing file for the key exists" is false of the program. -/
theorem lazyGetitem_stp_backed_counterexample :
    assocGet stpCex.data "k" = none ∧
    assocGet stpCex.datafiles "k.stp" = some (Value.brep 5) ∧
    lazyGetitem "k" stpCex = Except.error () ∧
    assocGet (dumpDataFiles [] [("k", Value.brep 5)]) "k.stp" = some (Value.brep 5) :=
  ⟨by decide, by decide, by rfl, by decide⟩

/-- C6 amended: `get(key, default)` returns the default without raising when
the key is absent from the cache and has no `<key>.json` backing file, and
strict indexing `session[key]` raises `KeyError` exactly when neither a
cached value nor a `<datadir>/<key>.json` backing file exists — a key backed
only by a `<key>.stp` file still raises, since `get` probes only the
`.json` path. -/
theorem lazy_get_default_getitem_keyerror (s : LazyState) (k : String) (d : Value) :
    (assocGet s.data k = none → assocGet s.datafiles (k ++ ".json") = none →
      lazyGet k d s = (d, s)) ∧
    (lazyGetitem k s = Except.error () ↔
      assocGet s.data k = none ∧ assocGet s.datafiles (k ++ ".json") = none) := by
  constructor
  · intro hdata hfile
    unfold lazyGet
    simp [assocMem, hdata, hfile]
  · unfold lazyGetitem lazyGet
    cases hdata : assocGet s.data k with
    | some v =>
        simp [assocMem, hdata]
    | none =>
        cases hfile : assocGet s.datafiles (k ++ ".json") with
        | some fv =>
            simp [assocMem, hdata, hfile, assocGet_set_self]
        | none =>
            simp [assocMem, hdata, hfile]

/-- Witness for C6 on a fresh session and a missing key. -/
theorem lazy_get_default_getitem_keyerror_witness :
    lazyGet "missing" (Value.json 7) setCex = (Value.json 7, setCex) ∧
    lazyGetitem "missing" setCex = Except.error () :=
  ⟨(lazy_get_default_getitem_keyerror setCex "missing" (Value.json 7)).1 (by rfl) (by rfl),
    (lazy_get_default_getitem_keyerror setCex "missing" (Value.json 7)).2.mpr
      ⟨by rfl, by rfl⟩⟩

theorem lazyContains_resident {s : LazyState} {k : String} {v : Value}
    (hdata : assocGet s.data k = some v) : lazyContains k s = (true, s) := by
  unfold lazyContains lazyGet
  simp [assocMem, hdata]

theorem lazyContains_load {s : LazyState} {k : String} {v : Value}
    (hdata : assocGet s.data k = none) (hfile : assocGet s.datafiles (k ++ ".json") = some v) :
    lazyContains k s = (true, { s with data := assocSet s.data k v }) := by
  unfold lazyContains lazyGet
  simp [assocMem, hdata, hfile, assocGet_set_self]

theorem lazyContains_miss {s : LazyState} {k : String}
    (hdata : assocGet s.data k = none) (hfile : assocGet s.datafiles (k ++ ".json") = none) :
    lazyContains k s = (false, s) := by
  unfold lazyContains lazyGet
  simp [assocMem, hdata, hfile]

/-- C10: the membership test `key in session` lazily loads: a non-resident
key with a backing file is loaded, cached, and reported `True`; a resident
key is reported `True` with no state change; `False` is reported only when
the key is neither resident nor backed by a file, with no state change. -/
theorem lazy_contains_lazily_loads (s : LazyState) (k : String) :
    (∀ v, assocGet s.data k = none → assocGet s.datafiles (k ++ ".json") = some v →
      lazyContains k s = (true, { s with data := assocSet s.data k v })) ∧
    ((lazyContains k s).1 = false →
      assocGet s.data k = none ∧ assocGet s.datafiles (k ++ ".json") = none ∧
        (lazyContains k s).2 = s) ∧
    (∀ v, assocGet s.data k = some v → lazyContains k s = (true, s)) := by
  refine ⟨fun v hdata hfile => lazyContains_load hdata hfile, ?_,
    fun v hdata => lazyContains_resident hdata⟩
  intro hfalse
  cases hdata : assocGet s.data k with
  | some v =>
      rw [lazyContains_resident hdata] at hfalse
      simp at hfalse
  | none =>
      cases hfile : assocGet s.datafiles (k ++ ".json") with
      | some fv =>
          rw [lazyContains_load hdata hfile] at hfalse
          simp at hfalse
      | none =>
          rw [lazyContains_miss hdata hfile]
          exact ⟨rfl, rfl, rfl⟩

/-- Witness for C10 on a state with a backing file for a non-resident key. -/
theorem lazy_contains_lazily_loads_witness :
    lazyContains "k" setdefaultCex =
      (true, { setdefaultCex with data := assocSet setdefaultCex.data "k" (Value.json 7) }) :=
  (lazy_contains_lazily_loads setdefaultCex "k").1 (Value.json 7) (by rfl) (by rfl)

/-- C9 counterexample: with a backing file `data/k.json` holding `json 7`
and no resident value, `setdefault("k", factory)` invokes the factory anyway
and returns the factory's value, not the loadable one. -/
theorem lazySetdefault_ignores_files_counterexample :
    assocGet setdefaultCex.datafiles ("k" ++ ".json") = some (Value.json 7) ∧
    (lazySetdefault "k" (fun _ => Value.json 9) setdefaultCex).2.2 = 1 ∧
    (lazySetdefault "k" (fun _ => Value.json 9) setdefaultCex).1 = Value.json 9 := by
  decide

/-- C9 amended: `setdefault(key, factory)` consults only the in-memory
cache: a resident key is returned unchanged with no factory call; otherwise
the factory is invoked exactly once — even when a backing file exists — and
its result is stored via `set` and returned. -/
theorem lazySetdefault_cache_miss_only (s : LazyState) (k : String) (f : Unit → Value) (v : Value) :
    (assocGet s.data k = some v → lazySetdefault k f s = (v, s, 0)) ∧
    (assocGet s.data k = none → lazySetdefault k f s = (f (), lazySet k (f ()) s, 1)) := by
  constructor
  · intro hdata
    unfold lazySetdefault lazyGet
    simp [assocMem, hdata]
  · intro hdata
    unfold lazySetdefault
    simp only [assocMem, hdata, Option.isSome_none, Bool.false_eq_true, if_false]
    unfold lazyGet
    have hres : assocGet (lazySet k (f ()) s).data k = some (f ()) := by
      unfold lazySet
      by_cases hsync : s.settings.autosync <;> simp [hsync, assocGet_set_self]
    simp [assocMem, hres]

/-- Witness for the amended C9 in both branches. -/
theorem lazySetdefault_cache_miss_only_witness :
    lazySetdefault "k" (fun _ => Value.json 9) setdefaultCex =
      (Value.json 9, lazySet "k" (Value.json 9) setdefaultCex, 1) ∧
    lazySetdefault "k" (fun _ => Value.json 9)
        (lazySet "k" (Value.json 5) setdefaultCex) =
      (Value.json 5, lazySet "k" (Value.json 5) setdefaultCex, 0) :=
  ⟨(lazySetdefault_cache_miss_only setdefaultCex "k" (fun _ => Value.json 9)
      Value.vnone).2 (by rfl),
    (lazySetdefault_cache_miss_only (lazySet "k" (Value.json 5) setdefaultCex) "k"
      (fun _ => Value.json 9) (Value.json 5)).1 (by decide)⟩

/-- C8 counterexample: with autosync enabled, `set("k", brep)` persists the
Brep to `data/k.json` via `compas.json_dump`; no `data/k.stp` file is
written, contrary to the claimed kind-based extension choice. -/
theorem lazySet_brep_json_counterexample :
    (lazySet "k" (Value.brep 5) setCex).datafiles = [("k.json", Value.brep 5)] ∧
    assocGet (lazySet "k" (Value.brep 5) setCex).datafiles "k.stp" = none := by
  decide

/-- C8 amended: `set(key, value)` caches the value and, when autosync is
set, persists it to `<datadir>/<key>.json` regardless of the value's kind;
the kind-based extension choice (`.stp` for Brep, `.json` otherwise) happens
only in `dump()`. -/
theorem lazySet_caches_json_persists (s : LazyState) (k : String) (v : Value) :
    ((lazySet k v s).data = assocSet s.data k v) ∧
    (s.settings.autosync = true →
      (lazySet k v s).datafiles = assocSet s.datafiles (k ++ ".json") v) ∧
    (s.settings.autosync = false → (lazySet k v s).datafiles = s.datafiles) ∧
    (∀ df n, dumpDataFiles df [(k, Value.brep n)] = assocSet df (k ++ ".stp") (Value.brep n)) ∧
    (∀ df n, dumpDataFiles df [(k, Value.json n)] = assocSet df (k ++ ".json") (Value.json n)) := by
  refine ⟨?_, ?_, ?_, ?_, ?_⟩
  · unfold lazySet
    by_cases hsync : s.settings.autosync <;> simp [hsync]
  · intro hsync
    unfold lazySet
    simp [hsync]
  · intro hsync
    unfold lazySet
    simp [hsync]
  · intro df n
    simp [dumpDataFiles]
  · intro df n
    simp [dumpDataFiles]

/-- Witness for the amended C8 with a Brep value under autosync. -/
theorem lazySet_caches_json_persists_witness :
    (lazySet "k" (Value.brep 5) setCex).data = assocSet setCex.data "k" (Value.brep 5) ∧
    (lazySet "k" (Value.brep 5) setCex).datafiles =
      assocSet setCex.datafiles ("k" ++ ".json") (Value.brep 5) :=
  ⟨(lazySet_caches_json_persists setCex "k" (Value.brep 5)).1,
    (lazySet_caches_json_persists setCex "k" (Value.brep 5)).2.1 (by rfl)⟩

/-- C1 counterexample: undo with the snapshot directory of
`history[current - 1]` missing returns `False` but has already moved the
cursor from 1 to 0 — the live state is not left exactly as it was. -/
theorem lazyUndo_moved_cursor_counterexample :
    lazyUndo undoCex = some ({ undoCex with current := 0 }, false) ∧
    undoCex.current = 1 := by
  decide

/-- C1 amended: when the snapshot directory of the target history entry is
missing, `undo()` (resp. `redo()`) returns `False` and leaves the data
store, the data directory and the scene/settings/tolerance/version files
untouched — but the cursor `current` has already been decremented (resp.
incremented) and is not restored. -/
theorem lazy_undo_redo_missing_snapshot (s : LazyState) (rid : Nat) (lbl : String) :
    (1 ≤ s.current → s.history.get? (s.current - 1).toNat = some (rid, lbl) →
      assocGet s.recordDirs rid = none →
      lazyUndo s = some ({ s with current := s.current - 1 }, false)) ∧
    (s.current < (s.history.length : Int) - 1 →
      s.history.get? (s.current + 1).toNat = some (rid, lbl) →
      assocGet s.recordDirs rid = none →
      lazyRedo s = some ({ s with current := s.current + 1 }, false)) := by
  constructor
  · intro hcur hget hdir
    unfold lazyUndo
    have h0 : ¬(s.current < 0) := by omega
    have h1 : ¬(s.current = 0) := by omega
    simp only [h0, h1, if_false]
    rw [hget]
    simp [hdir]
  · intro hcur hget hdir
    unfold lazyRedo
    have h0 : ¬(s.current ≥ (s.history.length : Int) - 1) := by omega
    simp only [h0, if_false]
    rw [hget]
    simp [hdir]

/-- Witness for the amended C1: a failing undo at one state and a failing
redo at another. -/
theorem lazy_undo_redo_missing_snapshot_witness :
    lazyUndo undoCex = some ({ undoCex with current := 0 }, false) ∧
    lazyRedo redoCex = some ({ redoCex with current := 1 }, false) :=
  ⟨by
      have h := (lazy_undo_redo_missing_snapshot undoCex 0 "a").1
        (by decide) (by decide) (by decide)
      simpa using h,
    by
      have h := (lazy_undo_redo_missing_snapshot redoCex 1 "b").2
        (by decide) (by decide) (by decide)
      simpa using h⟩

/-- C5 counterexample: after `record A; record B; undo; record C`, the
cursor was at 0 with two history entries, `record C` drops entry `(1, "B")`
from the history, but the snapshot directory `__records/1/` is still on
disk. -/
theorem lazyRecord_keeps_discarded_dirs_counterexample :
    (lazyUndo c5s2).map (fun p => p.2) = some true ∧
    c5s3.current = 0 ∧
    c5s3.history.map Prod.fst = [0, 1] ∧
    c5s4.history.map Prod.fst = [0, 2] ∧
    (assocGet c5s4.recordDirs 1).isSome = true := by
  decide

/-- C5 amended: `record(label)` with `current < len(history) - 1` discards
the history entries after `current` (afterwards
`len(history) = current_before + 2` when that fits in `depth`), but the
snapshot directories of the discarded entries are NOT deleted — every
previously existing snapshot directory is still on disk afterwards. -/
theorem lazyRecord_branch_truncation (s : LazyState) (lbl : String)
    (hcur0 : 0 ≤ s.current) (hcur : s.current < (s.history.length : Int) - 1)
    (hdepth : s.current + 2 ≤ s.depth) :
    (lazyRecord lbl s).history = s.history.take (s.current.toNat + 1) ++ [(s.clock, lbl)] ∧
    ((lazyRecord lbl s).history.length : Int) = s.current + 2 ∧
    (∀ rid snap, assocGet s.recordDirs rid = some snap → rid ≠ s.clock →
      assocGet (lazyRecord lbl s).recordDirs rid = some snap) := by
  have hhist : (lazyRecord lbl s).history =
      trimList s.depth (truncList s.current s.history ++ [(s.clock, lbl)]) := rfl
  have htrunc : truncList s.current s.history = s.history.take (s.current.toNat + 1) := by
    unfold truncList
    rw [if_pos ⟨by omega, hcur⟩]
  have hlen : ((s.history.take (s.current.toNat + 1) ++ [(s.clock, lbl)]).length : Int) =
      s.current + 2 := by
    rw [List.length_append, List.length_take]
    simp
    omega
  have htrim : trimList s.depth (s.history.take (s.current.toNat + 1) ++ [(s.clock, lbl)]) =
      s.history.take (s.current.toNat + 1) ++ [(s.clock, lbl)] := by
    unfold trimList
    rw [if_neg]
    rw [hlen]
    omega
  refine ⟨?_, ?_, ?_⟩
  · rw [hhist, htrunc, htrim]
  · rw [hhist, htrunc, htrim, hlen]
  · intro rid snap hdir hne
    have hpres : assocGet (lazyRecord lbl s).recordDirs rid = assocGet s.recordDirs rid := by
      show assocGet (assocSet s.recordDirs s.clock _) rid = assocGet s.recordDirs rid
      exact assocGet_set_ne _ _ _ _ (Ne.symm hne)
    rw [hpres, hdir]

/-- Witness for the amended C5 at a concrete two-entry history with the
cursor at 0. -/
theorem lazyRecord_branch_truncation_witness :
    (lazyRecord "C" branchCex).history =
      branchCex.history.take 1 ++ [(7, "C")] ∧
    ((lazyRecord "C" branchCex).history.length : Int) = 2 ∧
    assocGet (lazyRecord "C" branchCex).recordDirs 6 = some emptySnap := by
  have h := lazyRecord_branch_truncation branchCex "C" (by decide) (by decide) (by decide)
  exact ⟨h.1, h.2.1, h.2.2 6 emptySnap (by decide) (by decide)⟩

theorem trimList_length_le {depth : Int} (hd : 0 ≤ depth) (l : List (Nat × String)) :
    ((trimList depth l).length : Int) ≤ depth := by
  unfold trimList
  split
  · rename_i h
    rw [List.length_drop]
    omega
  · rename_i h
    omega

theorem trimList_getLast {depth : Int} (hd : 1 ≤ depth) (l : List (Nat × String))
    (x : Nat × String) : (trimList depth (l ++ [x])).getLast? = some x := by
  unfold trimList
  split
  · rename_i h
    rw [List.length_append] at h
    have hk : (l ++ [x]).length - depth.toNat ≤ l.length := by
      rw [List.length_append]
      simp
      omega
    rw [List.drop_append_of_le_length hk, List.getLast?_append]
    simp
  · rw [List.getLast?_append]
    simp

theorem lazyRecord_WF {s : LazyState} (lbl : String) (hwf : LazyWF s) :
    LazyWF (lazyRecord lbl s) := by
  obtain ⟨hd, hc1, hc2, hlen⟩ := hwf
  have hhist : (lazyRecord lbl s).history =
      trimList s.depth (truncList s.current s.history ++ [(s.clock, lbl)]) := rfl
  have hcur : (lazyRecord lbl s).current = ((lazyRecord lbl s).history.length : Int) - 1 := rfl
  have hdep : (lazyRecord lbl s).depth = s.depth := rfl
  refine ⟨?_, ?_, ?_, ?_⟩
  · rw [hdep]; exact hd
  · rw [hcur]; omega
  · rw [hcur]
  · rw [hhist, hdep]
    exact trimList_length_le (by omega) _

theorem lazyUndo_WF {s : LazyState} (hwf : LazyWF s) :
    LazyWF (((lazyUndo s).getD (s, false)).1) := by
  obtain ⟨hd, hc1, hc2, hlen⟩ := hwf
  unfold lazyUndo
  by_cases h0 : s.current < 0
  · rw [if_pos h0]; exact ⟨hd, hc1, hc2, hlen⟩
  · rw [if_neg h0]
    by_cases h1 : s.current = 0
    · rw [if_pos h1]; exact ⟨hd, hc1, hc2, hlen⟩
    · rw [if_neg h1]
      have hidx : (s.current - 1).toNat < s.history.length := by omega
      rw [List.get?_eq_get hidx]
      generalize s.history.get ⟨(s.current - 1).toNat, hidx⟩ = e
      obtain ⟨rid, lbl⟩ := e
      cases hdir : assocGet s.recordDirs rid with
      | some snap =>
          simp only [hdir, Option.getD_some]
          refine ⟨?_, ?_, ?_, ?_⟩
          · show 1 ≤ s.depth; exact hd
          · show (-1 : Int) ≤ s.current - 1; omega
          · show s.current - 1 ≤ (s.history.length : Int) - 1; omega
          · show (s.history.length : Int) ≤ s.depth; exact hlen
      | none =>
          simp only [hdir, Option.getD_some]
          refine ⟨?_, ?_, ?_, ?_⟩
          · show 1 ≤ s.depth; exact hd
          · show (-1 : Int) ≤ s.current - 1; omega
          · show s.current - 1 ≤ (s.history.length : Int) - 1; omega
          · show (s.history.length : Int) ≤ s.depth; exact hlen

theorem lazyRedo_WF {s : LazyState} (hwf : LazyWF s) :
    LazyWF (((lazyRedo s).getD (s, false)).1) := by
  obtain ⟨hd, hc1, hc2, hlen⟩ := hwf
  unfold lazyRedo
  by_cases h0 : s.current ≥ (s.history.length : Int) - 1
  · rw [if_pos h0]; exact ⟨hd, hc1, hc2, hlen⟩
  · rw [if_neg h0]
    have hidx : (s.current + 1).toNat < s.history.length := by omega
    rw [List.get?_eq_get hidx]
    generalize s.history.get ⟨(s.current + 1).toNat, hidx⟩ = e
    obtain ⟨rid, lbl⟩ := e
    cases hdir : assocGet s.recordDirs rid with
    | some snap =>
        simp only [hdir, Option.getD_some]
        refine ⟨?_, ?_, ?_, ?_⟩
        · show 1 ≤ s.depth; exact hd
        · show (-1 : Int) ≤ s.current + 1; omega
        · show s.current + 1 ≤ (s.history.length : Int) - 1; omega
        · show (s.history.length : Int) ≤ s.depth; exact hlen
    | none =>
        simp only [hdir, Option.getD_some]
        refine ⟨?_, ?_, ?_, ?_⟩
        · show 1 ≤ s.depth; exact hd
        · show (-1 : Int) ≤ s.current + 1; omega
        · show s.current + 1 ≤ (s.history.length : Int) - 1; omega
        · show (s.history.length : Int) ≤ s.depth; exact hlen

theorem lazyClear_WF (s : LazyState) :
    LazyWF (lazyClearHistory s) := by
  refine ⟨?_, ?_, ?_, ?_⟩
  · show (1 : Int) ≤ 53; norm_num
  · show (-1 : Int) ≤ -1; norm_num
  · show (-1 : Int) ≤ (([] : List (Nat × String)).length : Int) - 1; norm_num
  · show ((([] : List (Nat × String)).length : Int)) ≤ 53; norm_num

theorem lazyApply_WF (op : LazyOp) {s : LazyState} (hwf : LazyWF s) :
    LazyWF (lazyApply op s) := by
  cases op with
  | record lbl => exact lazyRecord_WF lbl hwf
  | undo => exact lazyUndo_WF hwf
  | redo => exact lazyRedo_WF hwf
  | clear => exact lazyClear_WF s

theorem lazyApply_fold_WF (ops : List LazyOp) {s : LazyState} (hwf : LazyWF s) :
    LazyWF (ops.foldl (fun s op => lazyApply op s) s) := by
  induction ops generalizing s with
  | nil => exact hwf
  | cons op rest ih => exact ih (lazyApply_WF op hwf)

/-- C4: from the initial state (empty history, `current = -1`) every
sequence of `record`/`undo`/`redo`/`clear_history` operations preserves
`-1 <= current <= len(history) - 1` and `len(history) <= depth`; and on any
well-formed state, `record` leaves `current = len(history) - 1`, at most
`depth` entries, and the newly appended entry as the last one (the trimming
drops from the front, i.e. the oldest entries). -/
theorem lazy_history_invariants (d : Int) (stg : Settings) (sc : Value)
    (ops : List LazyOp) (hd : 1 ≤ d) :
    LazyWF (ops.foldl (fun s op => lazyApply op s) (LazyState.initial d stg sc)) ∧
    (∀ s lbl, LazyWF s →
      (lazyRecord lbl s).current = ((lazyRecord lbl s).history.length : Int) - 1 ∧
      ((lazyRecord lbl s).history.length : Int) ≤ s.depth ∧
      (lazyRecord lbl s).history.getLast? = some (s.clock, lbl)) := by
  constructor
  · refine lazyApply_fold_WF ops ⟨?_, ?_, ?_, ?_⟩
    · exact hd
    · show (-1 : Int) ≤ -1; norm_num
    · show (-1 : Int) ≤ (([] : List (Nat × String)).length : Int) - 1; norm_num
    · show ((([] : List (Nat × String)).length : Int)) ≤ d; simp; omega
  · intro s lbl hwf
    obtain ⟨hdep, hc1, hc2, hlen⟩ := hwf
    refine ⟨rfl, ?_, ?_⟩
    · show ((trimList s.depth (truncList s.current s.history ++ [(s.clock, lbl)])).length : Int) ≤
        s.depth
      exact trimList_length_le (by omega) _
    · show (trimList s.depth (truncList s.current s.history ++ [(s.clock, lbl)])).getLast? =
        some (s.clock, lbl)
      exact trimList_getLast hdep _ _

/-- Witness for C4 on a depth-53 session and a concrete operation
sequence. -/
theorem lazy_history_invariants_witness :
    LazyWF ([LazyOp.record "A", LazyOp.record "B", LazyOp.undo, LazyOp.redo,
        LazyOp.clear].foldl (fun s op => lazyApply op s)
      (LazyState.initial 53 ⟨false, true⟩ (Value.sceneV 0))) ∧
    ((lazyRecord "A" (LazyState.initial 53 ⟨false, true⟩ (Value.sceneV 0))).current =
        ((lazyRecord "A" (LazyState.initial 53 ⟨false, true⟩
          (Value.sceneV 0))).history.length : Int) - 1 ∧
      ((lazyRecord "A" (LazyState.initial 53 ⟨false, true⟩
          (Value.sceneV 0))).history.length : Int) ≤
        (LazyState.initial 53 ⟨false, true⟩ (Value.sceneV 0)).depth ∧
      (lazyRecord "A" (LazyState.initial 53 ⟨false, true⟩
          (Value.sceneV 0))).history.getLast? = some (0, "A")) := by
  have h := lazy_history_invariants 53 ⟨false, true⟩ (Value.sceneV 0)
    [LazyOp.record "A", LazyOp.record "B", LazyOp.undo, LazyOp.redo, LazyOp.clear]
    (by norm_num)
  exact ⟨h.1, h.2 (LazyState.initial 53 ⟨false, true⟩ (Value.sceneV 0)) "A" (by decide)⟩

theorem truncList_tail {current : Int} {l : List (Nat × String)}
    (h : current = (l.length : Int) - 1) : truncList current l = l := by
  unfold truncList
  rw [if_neg]
  omega

theorem trimList_append_one {depth : Int} (hd : 1 ≤ depth) (l : List (Nat × String))
    (a : Nat × String) : ∃ H, trimList depth (l ++ [a]) = H ++ [a] := by
  unfold trimList
  split
  · rename_i h
    rw [List.length_append] at h
    have hk : (l ++ [a]).length - depth.toNat ≤ l.length := by
      rw [List.length_append]
      simp
      omega
    exact ⟨_, List.drop_append_of_le_length hk⟩
  · exact ⟨l, rfl⟩

theorem trimList_append_two {depth : Int} (hd : 2 ≤ depth) (l : List (Nat × String))
    (a b : Nat × String) : ∃ H, trimList depth (l ++ [a, b]) = H ++ [a, b] := by
  unfold trimList
  split
  · rename_i h
    rw [List.length_append] at h
    have hk : (l ++ [a, b]).length - depth.toNat ≤ l.length := by
      rw [List.length_append]
      simp
      omega
    exact ⟨_, List.drop_append_of_le_length hk⟩
  · exact ⟨l, rfl⟩

theorem get?_append_pair_left (H : List (Nat × String)) (a b : Nat × String) :
    (H ++ [a, b]).get? H.length = some a := by
  rw [List.get?_eq_getElem?, List.getElem?_append_right (le_refl _)]
  simp

theorem get?_append_pair_right (H : List (Nat × String)) (a b : Nat × String) :
    (H ++ [a, b]).get? (H.length + 1) = some b := by
  rw [List.get?_eq_getElem?, List.getElem?_append_right (by omega)]
  simp

theorem sessionRedo_after_record (lbl : String) (t : SessState) :
    sessionRedo (sessionRecord lbl t) = some (sessionRecord lbl t, false) := by
  unfold sessionRedo
  rw [if_pos (show (sessionRecord lbl t).current =
      ((sessionRecord lbl t).history.length : Int) - 1 from rfl)]

theorem sessionUndo_eq {s : SessState} {fid : Nat} {lbl : String} {b : DumpBlob}
    (h1 : ¬(s.current < 0)) (h2 : ¬(s.current = 0))
    (hget : s.history.get? (s.current - 1).toNat = some (fid, lbl))
    (hload : assocGet s.files fid = some b) :
    sessionUndo s =
      some ({ s with
        current := s.current - 1
        data := b.ddata
        scene := b.dscene
        settings := b.dsettings }, true) := by
  unfold sessionUndo
  rw [if_neg h1, if_neg h2]
  simp only [hget, sessionLoad, hload]

theorem sessionRedo_eq {s : SessState} {fid : Nat} {lbl : String} {b : DumpBlob}
    (h1 : ¬(s.current = (s.history.length : Int) - 1))
    (hget : s.history.get? (s.current + 1).toNat = some (fid, lbl))
    (hload : assocGet s.files fid = some b) :
    sessionRedo s =
      some ({ s with
        current := s.current + 1
        data := b.ddata
        scene := b.dscene
        settings := b.dsettings }, true) := by
  unfold sessionRedo
  rw [if_neg h1]
  simp only [hget, sessionLoad, hload]

/-- C7: starting from any cursor-at-tail state (a history produced only by
`record` calls), after `record "A"; set k v; record "B"` an `undo()` succeeds
and restores the data store to its contents at the time of `record "A"` (so
`get k` returns its old value); a `redo()` then succeeds and restores exactly
the state the undo moved away from; and after any intervening `record`,
`redo()` returns false and changes nothing. -/
theorem session_undo_redo_record (s : SessState) (k : String) (v dflt : Value)
    (hdepth : 2 ≤ s.depth) (htail : s.current = (s.history.length : Int) - 1) :
    (∃ s4, sessionUndo (sessionRecord "B" (sessionSet k v (sessionRecord "A" s))) =
        some (s4, true) ∧
      s4.data = s.data ∧
      sessionGet k dflt s4 = sessionGet k dflt (sessionRecord "A" s) ∧
      sessionRedo s4 =
        some (sessionRecord "B" (sessionSet k v (sessionRecord "A" s)), true)) ∧
    (∀ lbl t, sessionRedo (sessionRecord lbl t) = some (sessionRecord lbl t, false)) := by
  refine ⟨?_, sessionRedo_after_record⟩
  set s1 := sessionRecord "A" s with hs1
  set s2 := sessionSet k v s1 with hs2
  set s3 := sessionRecord "B" s2 with hs3
  have hist1 : s1.history = trimList s.depth (s.history ++ [(s.nextFile, "A")]) := by
    rw [hs1]
    show trimList s.depth (truncList s.current s.history ++ [(s.nextFile, "A")]) = _
    rw [truncList_tail htail]
  obtain ⟨H1, hH1⟩ := @trimList_append_one s.depth (by omega) s.history (s.nextFile, "A")
  have hist1' : s1.history = H1 ++ [(s.nextFile, "A")] := by rw [hist1, hH1]
  have hist3 : s3.history = trimList s.depth (s1.history ++ [(s.nextFile + 1, "B")]) := by
    rw [hs3]
    show trimList s2.depth (truncList s2.current s2.history ++ [(s2.nextFile, "B")]) = _
    rw [truncList_tail (show s2.current = (s2.history.length : Int) - 1 from rfl)]
    rfl
  obtain ⟨H2, hH2⟩ := trimList_append_two hdepth H1 (s.nextFile, "A") (s.nextFile + 1, "B")
  have hist3' : s3.history = H2 ++ [(s.nextFile, "A"), (s.nextFile + 1, "B")] := by
    rw [hist3, hist1', List.append_assoc]
    exact hH2
  have hcur3 : s3.current = (s3.history.length : Int) - 1 := rfl
  have hlen3 : s3.history.length = H2.length + 2 := by rw [hist3']; simp
  have hcur3' : s3.current = (H2.length : Int) + 1 := by
    rw [hcur3, hlen3]
    push_cast
    ring
  have hg0 : ¬(s3.current < 0) := by omega
  have hg1 : ¬(s3.current = 0) := by omega
  have hidx : (s3.current - 1).toNat = H2.length := by omega
  have hget : s3.history.get? (s3.current - 1).toNat = some (s.nextFile, "A") := by
    rw [hidx, hist3']
    exact get?_append_pair_left H2 _ _
  have hfiles3 : s3.files =
      assocSet (assocSet s.files s.nextFile ⟨s.data, s.scene, s.settings⟩)
        (s.nextFile + 1) ⟨assocSet s.data k v, s.scene, s.settings⟩ := rfl
  have hloadA : assocGet s3.files s.nextFile =
      some ⟨s.data, s.scene, s.settings⟩ := by
    rw [hfiles3, assocGet_set_ne _ _ _ _ (by omega), assocGet_set_self]
  have hloadB : assocGet s3.files (s.nextFile + 1) =
      some ⟨assocSet s.data k v, s.scene, s.settings⟩ := by
    rw [hfiles3, assocGet_set_self]
  have hundo := sessionUndo_eq hg0 hg1 hget hloadA
  refine ⟨s4c s3 s, hundo, rfl, rfl, ?_⟩
  have hg2 : ¬((s4c s3 s).current = ((s4c s3 s).history.length : Int) - 1) := by
    show ¬(s3.current - 1 = (s3.history.length : Int) - 1)
    omega
  have heq1 : s3.current - 1 + 1 = s3.current := by ring
  have hget2 : (s4c s3 s).history.get? ((s4c s3 s).current + 1).toNat =
      some (s.nextFile + 1, "B") := by
    show s3.history.get? (s3.current - 1 + 1).toNat = _
    rw [heq1]
    have hidx2 : s3.current.toNat = H2.length + 1 := by omega
    rw [hidx2, hist3']
    exact get?_append_pair_right H2 _ _
  have hload2 : assocGet (s4c s3 s).files (s.nextFile + 1) =
      some ⟨assocSet s.data k v, s.scene, s.settings⟩ := hloadB
  have hredo := sessionRedo_eq hg2 hget2 hload2
  rw [hredo]
  have hfix : ({ s4c s3 s with
      current := (s4c s3 s).current + 1
      data := assocSet s.data k v
      scene := s.scene
      settings := s.settings } : SessState) = s3 := by
    refine SessState.ext_fields ?_ rfl rfl rfl rfl rfl rfl rfl
    show s3.current - 1 + 1 = s3.current
    ring
  exact congrArg (fun t => some (t, true)) hfix

/-- Witness for C7 on a fresh session: data restored by undo, state restored
by redo, and redo refused after an intervening record. -/
theorem session_undo_redo_record_witness :
    ((sessionUndo (sessionRecord "B" (sessionSet "x" (Value.json 20)
        (sessionRecord "A" (SessState.initial (Value.sceneV 0) ⟨false, true⟩))))).map
      (fun p => (p.1.data, p.2)) =
      some ((SessState.initial (Value.sceneV 0) ⟨false, true⟩).data, true)) ∧
    ((sessionUndo (sessionRecord "B" (sessionSet "x" (Value.json 20)
        (sessionRecord "A" (SessState.initial (Value.sceneV 0) ⟨false, true⟩))))).map
      (fun p => sessionRedo p.1) =
      some (some (sessionRecord "B" (sessionSet "x" (Value.json 20)
        (sessionRecord "A" (SessState.initial (Value.sceneV 0) ⟨false, true⟩))), true))) ∧
    sessionRedo (sessionRecord "C" (SessState.initial (Value.sceneV 0) ⟨false, true⟩)) =
      some (sessionRecord "C" (SessState.initial (Value.sceneV 0) ⟨false, true⟩), false) := by
  have h := session_undo_redo_record (SessState.initial (Value.sceneV 0) ⟨false, true⟩)
    "x" (Value.json 20) Value.vnone (by decide) (by decide)
  obtain ⟨⟨s4, h1, h2, h3, h4⟩, h5⟩ := h
  refine ⟨?_, ?_, h5 "C" _⟩
  · rw [h1]
    simp [h2]
  · rw [h1]
    simp [h4]

end CompasSession
